import Mathlib

/-!
Verification of `ComponentTransitionAnimation`: a shallow embedding of
`src/components/ComponentTransitionAnimation.tsx`.

JavaScript numbers are modelled as rationals (`ℚ`): every operation the
component performs on numbers (equality comparison, `| 0` truncation,
division by 2, the `||` falsiness test) is exact on the values involved,
so no floating-point rounding enters the picture.

The component's runtime behaviour is modelled as a state machine
`CTAState` together with the transitions the React runtime drives:

* `receiveStep` — the `currentStep` prop changes; the `useEffect` (whose
  dependency list contains `currentStep`) re-runs and calls
  `queueDelayedStep currentStep`.
* `fireTimer` — the `setTimeout` continuation of the earliest pending
  `delay` resolves; the code after `await` runs `setDelayedStep(step)`
  and `setOpacity(1)` back to back (one batched update, modelled as the
  single function `commit`).  When this changes `delayedStep`, the
  `useCallback` identity of `queueDelayedStep` changes (its dependency
  list is `[delayedStep, transitionDuration_]`), so the `useEffect`
  re-runs and calls `queueDelayedStep currentStep` again.

`setTimeout` clamps negative delays to zero (`timeoutDelay`), per the
host-platform timer contract.
-/

namespace CTA

/-- JavaScript truncation toward zero of a number, as used by `ToInt32`:
`Int.tdiv` is T-division, which truncates toward zero. -/
def jsTrunc (q : ℚ) : ℤ :=
  q.num.tdiv (q.den : ℤ)

/-- JavaScript `x | 0`: `ToInt32` — truncate toward zero, then wrap into
the signed 32-bit range. -/
def toInt32 (q : ℚ) : ℤ :=
  (jsTrunc q + 2 ^ 31) % 2 ^ 32 - 2 ^ 31

/-- Models `transitionDuration || 1000` from line 46: `||` replaces the
falsy values (`0`, and an omitted prop, i.e. `undefined`) by the default. -/
def defaultedDuration (transitionDuration : Option ℚ) : ℚ :=
  match transitionDuration with
  | none => 1000
  | some d => if d = 0 then 1000 else d

/-- Line 46: `const transitionDuration_ = (transitionDuration || 1000) / 2`. -/
def transitionDuration_ (transitionDuration : Option ℚ) : ℚ :=
  defaultedDuration transitionDuration / 2

/-- Line 45: `const animationType_ = animationType || 'ease-in-out'`. -/
def animationType_ (animationType : Option String) : String :=
  match animationType with
  | none => "ease-in-out"
  | some t => if t = "" then "ease-in-out" else t

/-- The delay actually honoured by `setTimeout(resolve, ms)`: negative
requests are clamped to zero. -/
def timeoutDelay (ms : ℚ) : ℚ :=
  max ms 0

/-- The component's observable state: the `currentStep` prop as last
rendered, the two `useState` cells, and the queue of pending `delay`
continuations as (absolute due time, captured `step` argument) pairs in
scheduling order. -/
structure CTAState where
  currentStep : ℚ
  delayedStep : ℚ
  opacity : ℚ
  pending : List (ℚ × ℚ)
  deriving DecidableEq, Repr

/-- Function `queueDelayedStep` (lines 53–64) called with argument `step` at
absolute time `now`, where `h` is `transitionDuration_`:
if `step === delayedStep` it returns without doing anything; otherwise
it sets opacity to 0 and schedules the commit continuation after
`delay(transitionDuration_)`. -/
def queueDelayedStep (h now step : ℚ) (s : CTAState) : CTAState :=
  if step = s.delayedStep then s
  else { s with opacity := 0, pending := s.pending ++ [(now + timeoutDelay h, step)] }

/-- The `currentStep` prop changes to `newStep` at time `now`: the
`useEffect` (lines 66–68) re-runs and calls `queueDelayedStep currentStep`. -/
def receiveStep (h now newStep : ℚ) (s : CTAState) : CTAState :=
  queueDelayedStep h now newStep { s with currentStep := newStep }

/-- The code after `await delay(...)` (lines 62–63): `setDelayedStep(step)`
and `setOpacity(1)`, batched into one state update. -/
def commit (step : ℚ) (s : CTAState) : CTAState :=
  { s with delayedStep := step, opacity := 1 }

/-- The earliest pending `delay` continuation resolves at time `now`:
its commit applies, and if `delayedStep` changed the `useCallback`
identity of `queueDelayedStep` changes, so the `useEffect` re-runs with
the current `currentStep` prop. -/
def fireTimer (h now : ℚ) (s : CTAState) : CTAState :=
  match s.pending with
  | [] => s
  | (_, step) :: rest =>
    let s1 := commit step { s with pending := rest }
    if step = s.delayedStep then s1
    else queueDelayedStep h now s1.currentStep s1

/-- First mount (lines 48–49): `useState(currentStep | 0)` seeds
`delayedStep`, `useState(1)` seeds `opacity`, nothing pending. -/
def initState (c : ℚ) : CTAState :=
  { currentStep := c, delayedStep := ((toInt32 c : ℤ) : ℚ), opacity := 1, pending := [] }

/-- Mounting: the initial state, then the mount-time `useEffect` run of
`queueDelayedStep currentStep` at time 0. -/
def mount (transitionDuration : Option ℚ) (c : ℚ) : CTAState :=
  queueDelayedStep (transitionDuration_ transitionDuration) 0 c (initState c)

/-- The rendered items (lines 77–94):
`components.filter((_, index) => index === delayedStep)`, with the `map`
wrapping each survivor one-to-one. `===` between the array index and the
step value is exact numeric equality. -/
def renderedItems {α : Type} (components : List α) (step : ℚ) : List α :=
  ((components.enum).filter (fun p => decide ((p.1 : ℚ) = step))).map Prod.snd

/-- Values of CSS properties: the source uses strings and one number
(`opacity`). -/
inductive StyleVal where
  | str : String → StyleVal
  | num : ℚ → StyleVal
  deriving DecidableEq, Repr

/-- Rendering of a JavaScript number inside a template literal. Only the
structure of the produced strings is at issue in the theorems below, so
the digit rendering itself is abstracted by the canonical rational
rendering; the same function is used on both sides of every equation. -/
def numStr (q : ℚ) : String :=
  toString q

/-- Line 73: the template literal built into the container's
`transition` property. The interpolated value `transitionDuration_` is
half the total duration in milliseconds, but the unit written after it
is `s`. -/
def containerTransition (transitionDuration : Option ℚ) (T : String) : String :=
  "height " ++ numStr (transitionDuration_ transitionDuration) ++ "s " ++ T

/-- Line 85: the template literal built into the item wrapper's
`transition` property, with unit `ms`. -/
def itemTransition (transitionDuration : Option ℚ) (T : String) : String :=
  "opacity " ++ numStr (transitionDuration_ transitionDuration) ++ "ms " ++ T

/-- A JavaScript object literal as its ordered list of property
assignments; a spread `...o` contributes `o`'s assignments in place. -/
def getStyle (assignments : List (String × StyleVal)) (k : String) : Option StyleVal :=
  assignments.foldl (fun acc kv => if kv.1 = k then some kv.2 else acc) none

/-- The component's computed default properties for the container
(line 73). -/
def containerDefaults (transitionDuration : Option ℚ) (T : String) :
    List (String × StyleVal) :=
  [("transition", StyleVal.str (containerTransition transitionDuration T))]

/-- Lines 72–75: the container's style object,
`{ transition: ..., ...containerStyle_ }` — defaults first, then the
caller's record spread over them. -/
def containerAssignments (transitionDuration : Option ℚ) (T : String)
    (user : List (String × StyleVal)) : List (String × StyleVal) :=
  containerDefaults transitionDuration T ++ user

/-- The component's computed default properties for the displayed item's
wrapper (lines 83–86). -/
def itemDefaults (transitionDuration : Option ℚ) (T : String) (opacity : ℚ) :
    List (String × StyleVal) :=
  [("opacity", StyleVal.num opacity), ("display", StyleVal.str "flex"),
   ("transition", StyleVal.str (itemTransition transitionDuration T)),
   ("width", StyleVal.str "100%")]

/-- Lines 82–88: the item wrapper's style object — computed defaults,
then the caller's `style_` record spread over them. -/
def itemAssignments (transitionDuration : Option ℚ) (T : String) (opacity : ℚ)
    (user : List (String × StyleVal)) : List (String × StyleVal) :=
  itemDefaults transitionDuration T opacity ++ user

/-- An idle component state: displayed step `a`, fully visible, nothing
pending, prop in agreement with the display. -/
def idleAt (a : ℚ) : CTAState :=
  { currentStep := a, delayedStep := a, opacity := 1, pending := [] }

/-- C3: a `currentStep` update equal to the displayed step is a no-op —
the displayed step, the visibility level and the pending-timer queue are
all unchanged, so in particular visibility stays 1 in the idle state and
no delayed commit is scheduled. -/
theorem equal_step_noop (h now c : ℚ) (s : CTAState) (hc : c = s.delayedStep) :
    (receiveStep h now c s).delayedStep = s.delayedStep ∧
    (receiveStep h now c s).opacity = s.opacity ∧
    (receiveStep h now c s).pending = s.pending := by
  simp [receiveStep, queueDelayedStep, hc]

/-- Witness for `equal_step_noop` at an idle state displaying step 3. -/
theorem equal_step_noop_witness :
    (receiveStep 500 0 3 (idleAt 3)).delayedStep = (idleAt 3).delayedStep ∧
    (receiveStep 500 0 3 (idleAt 3)).opacity = (idleAt 3).opacity ∧
    (receiveStep 500 0 3 (idleAt 3)).pending = (idleAt 3).pending :=
  equal_step_noop 500 0 3 (idleAt 3) rfl

/-- C7: omitting the duration yields `transitionDuration_ = 500` (half
of a 1000 ms total, used both for the fade-out delay and the declared
fade-in transition), and omitting the timing function yields
`"ease-in-out"`. -/
theorem default_duration_and_timing :
    defaultedDuration none = 1000 ∧ transitionDuration_ none = 500 ∧
    animationType_ none = "ease-in-out" := by
  refine ⟨rfl, ?_, rfl⟩
  norm_num [transitionDuration_, defaultedDuration]

/-- Counterexample to C5: a `transitionDuration` of exactly 0 is falsy,
so `transitionDuration || 1000` falls back to the default and the
delayed commit is scheduled a positive 500 ms later, not instantly. -/
theorem zero_duration_not_instant :
    timeoutDelay (transitionDuration_ (some 0)) = 500 ∧
    ¬ timeoutDelay (transitionDuration_ (some 0)) ≤ 0 ∧
    (receiveStep (transitionDuration_ (some 0)) 0 1 (idleAt 0)).pending = [(500, 1)] := by
  refine ⟨?_, ?_, ?_⟩ <;>
    norm_num [timeoutDelay, transitionDuration_, defaultedDuration, receiveStep,
      queueDelayedStep, idleAt]

/-- C5 as amended: for every strictly negative duration the scheduled
delay is clamped to zero, so the commit is due immediately (`now`), and
firing it applies the requested step at full visibility; no fault is
raised (every operation of the model is total). A zero duration instead
falls back to the 1000 ms default. -/
theorem negative_duration_instant (D now a b : ℚ) (hD : D < 0) (hb : b ≠ a) :
    (receiveStep (transitionDuration_ (some D)) now b (idleAt a)).pending = [(now, b)] ∧
    (fireTimer (transitionDuration_ (some D)) now
      (receiveStep (transitionDuration_ (some D)) now b (idleAt a))).delayedStep = b ∧
    (fireTimer (transitionDuration_ (some D)) now
      (receiveStep (transitionDuration_ (some D)) now b (idleAt a))).opacity = 1 := by
  have hD0 : ¬ (D = 0) := by intro h0; rw [h0] at hD; exact absurd hD (by norm_num)
  have hdur : transitionDuration_ (some D) = D / 2 := by
    simp [transitionDuration_, defaultedDuration, hD0]
  have hclamp : timeoutDelay (D / 2) = 0 := by
    simp only [timeoutDelay, max_eq_right_iff]
    linarith
  simp [receiveStep, queueDelayedStep, fireTimer, commit, idleAt, hdur, hclamp, hb]

/-- Witness for `negative_duration_instant` at duration −100. -/
theorem negative_duration_instant_witness :
    (receiveStep (transitionDuration_ (some (-100))) 7 1 (idleAt 0)).pending = [(7, 1)] ∧
    (fireTimer (transitionDuration_ (some (-100))) 7
      (receiveStep (transitionDuration_ (some (-100))) 7 1 (idleAt 0))).delayedStep = 1 ∧
    (fireTimer (transitionDuration_ (some (-100))) 7
      (receiveStep (transitionDuration_ (some (-100))) 7 1 (idleAt 0))).opacity = 1 :=
  negative_duration_instant (-100) 7 0 1 (by norm_num) (by norm_num)

/-- Counterexample to C6: at `currentStep = 2 ^ 31` the seed
`currentStep | 0` wraps to `-2 ^ 31`, which is not the truncated integer
value `2 ^ 31`. -/
theorem init_not_plain_truncation :
    (initState ((2 : ℚ) ^ 31)).delayedStep = -(2 ^ 31) ∧
    jsTrunc ((2 : ℚ) ^ 31) = 2 ^ 31 ∧
    (initState ((2 : ℚ) ^ 31)).delayedStep ≠ ((jsTrunc ((2 : ℚ) ^ 31) : ℤ) : ℚ) := by
  refine ⟨?_, ?_, ?_⟩ <;> decide

/-- C6 as amended: the displayed step is initialized to the 32-bit
truncation (`ToInt32`) of the first received `currentStep`, which equals
the plain truncation toward zero whenever that truncation lies in the
signed 32-bit range; the visibility level is initialized to 1. -/
theorem init_seeds_trunc_in_range (c : ℚ)
    (h1 : -(2 ^ 31) ≤ jsTrunc c) (h2 : jsTrunc c < 2 ^ 31) :
    (initState c).delayedStep = ((jsTrunc c : ℤ) : ℚ) ∧ (initState c).opacity = 1 := by
  have h32 : toInt32 c = jsTrunc c := by
    unfold toInt32
    omega
  exact ⟨by simp [initState, h32], rfl⟩

/-- Witness for `init_seeds_trunc_in_range` at `currentStep = 7/2`,
whose truncation is 3. -/
theorem init_seeds_trunc_in_range_witness :
    (initState (7 / 2 : ℚ)).delayedStep = ((jsTrunc (7 / 2 : ℚ) : ℤ) : ℚ) ∧
    (initState (7 / 2 : ℚ)).opacity = 1 :=
  init_seeds_trunc_in_range (7 / 2) (by norm_num [jsTrunc]; decide)
    (by norm_num [jsTrunc]; decide)

/-- C1: from an idle state displaying `a`, a request for `b ≠ a` with a
positive total duration `D` immediately drops the visibility level to 0
while still displaying `a`, and schedules exactly one commit due
`D / 2` milliseconds later; when that commit fires, the displayed step
becomes `b` and the visibility level returns to 1 in one atomic state
update (`commit` writes both fields in a single step, so no state shows
the new step at visibility 0, and the old step is only ever seen at
visibility 1 or 0). -/
theorem request_fades_then_commits (D now a b : ℚ) (s : CTAState)
    (hD : 0 < D) (ha : s.delayedStep = a) (_hop : s.opacity = 1)
    (hp : s.pending = []) (hab : b ≠ a) :
    (receiveStep (transitionDuration_ (some D)) now b s).opacity = 0 ∧
    (receiveStep (transitionDuration_ (some D)) now b s).delayedStep = a ∧
    (receiveStep (transitionDuration_ (some D)) now b s).pending = [(now + D / 2, b)] ∧
    (fireTimer (transitionDuration_ (some D)) (now + D / 2)
      (receiveStep (transitionDuration_ (some D)) now b s)).delayedStep = b ∧
    (fireTimer (transitionDuration_ (some D)) (now + D / 2)
      (receiveStep (transitionDuration_ (some D)) now b s)).opacity = 1 ∧
    (fireTimer (transitionDuration_ (some D)) (now + D / 2)
      (receiveStep (transitionDuration_ (some D)) now b s)).pending = [] := by
  have hD0 : ¬ (D = 0) := fun h0 => absurd (h0 ▸ hD) (by norm_num)
  have hdur : transitionDuration_ (some D) = D / 2 := by
    simp [transitionDuration_, defaultedDuration, hD0]
  have hclamp : timeoutDelay (D / 2) = D / 2 := by
    simp only [timeoutDelay, max_eq_left_iff]
    linarith
  simp [receiveStep, queueDelayedStep, fireTimer, commit, hdur, hclamp, ha, hp,
    hab]

/-- Witness for `request_fades_then_commits`: duration 1000, request 2
from an idle state displaying 0. -/
theorem request_fades_then_commits_witness :
    (receiveStep (transitionDuration_ (some 1000)) 0 2 (idleAt 0)).opacity = 0 ∧
    (receiveStep (transitionDuration_ (some 1000)) 0 2 (idleAt 0)).delayedStep = 0 ∧
    (receiveStep (transitionDuration_ (some 1000)) 0 2 (idleAt 0)).pending =
      [(0 + 1000 / 2, 2)] ∧
    (fireTimer (transitionDuration_ (some 1000)) (0 + 1000 / 2)
      (receiveStep (transitionDuration_ (some 1000)) 0 2 (idleAt 0))).delayedStep = 2 ∧
    (fireTimer (transitionDuration_ (some 1000)) (0 + 1000 / 2)
      (receiveStep (transitionDuration_ (some 1000)) 0 2 (idleAt 0))).opacity = 1 ∧
    (fireTimer (transitionDuration_ (some 1000)) (0 + 1000 / 2)
      (receiveStep (transitionDuration_ (some 1000)) 0 2 (idleAt 0))).pending = [] :=
  request_fades_then_commits 1000 0 0 2 (idleAt 0) (by norm_num) rfl rfl rfl
    (by norm_num)

/-- C2: scenario of two rapid requests — from an idle state displaying
`a`, step `b ≠ a` is requested at `t0` and the prop is set back to `a`
at `t1` before the first half-duration elapses. No pending commit is
cancelled: the first commit fires at its scheduled time `t0 + D / 2` and
displays `b`; committing changes `delayedStep`, so the effect re-runs
and schedules the second fade cycle, whose commit fires at its own
scheduled time `t0 + D`; after both elapse the displayed step equals the
last-requested value `a` and the visibility level is 1. -/
theorem rapid_requests_both_commit (D a b t0 t1 : ℚ)
    (hD : 0 < D) (hab : b ≠ a) (_ht : t1 < t0 + D / 2) :
    (receiveStep (transitionDuration_ (some D)) t1 a
      (receiveStep (transitionDuration_ (some D)) t0 b (idleAt a))).pending =
      [(t0 + D / 2, b)] ∧
    (fireTimer (transitionDuration_ (some D)) (t0 + D / 2)
      (receiveStep (transitionDuration_ (some D)) t1 a
        (receiveStep (transitionDuration_ (some D)) t0 b (idleAt a)))).delayedStep = b ∧
    (fireTimer (transitionDuration_ (some D)) (t0 + D / 2)
      (receiveStep (transitionDuration_ (some D)) t1 a
        (receiveStep (transitionDuration_ (some D)) t0 b (idleAt a)))).pending =
      [(t0 + D, a)] ∧
    (fireTimer (transitionDuration_ (some D)) (t0 + D)
      (fireTimer (transitionDuration_ (some D)) (t0 + D / 2)
        (receiveStep (transitionDuration_ (some D)) t1 a
          (receiveStep (transitionDuration_ (some D)) t0 b (idleAt a))))).delayedStep = a ∧
    (fireTimer (transitionDuration_ (some D)) (t0 + D)
      (fireTimer (transitionDuration_ (some D)) (t0 + D / 2)
        (receiveStep (transitionDuration_ (some D)) t1 a
          (receiveStep (transitionDuration_ (some D)) t0 b (idleAt a))))).opacity = 1 ∧
    (fireTimer (transitionDuration_ (some D)) (t0 + D)
      (fireTimer (transitionDuration_ (some D)) (t0 + D / 2)
        (receiveStep (transitionDuration_ (some D)) t1 a
          (receiveStep (transitionDuration_ (some D)) t0 b (idleAt a))))).pending = [] := by
  have hD0 : ¬ (D = 0) := fun h0 => absurd (h0 ▸ hD) (by norm_num)
  have hdur : transitionDuration_ (some D) = D / 2 := by
    simp [transitionDuration_, defaultedDuration, hD0]
  have hclamp : timeoutDelay (D / 2) = D / 2 := by
    simp only [timeoutDelay, max_eq_left_iff]
    linarith
  have hsum : t0 + D / 2 + D / 2 = t0 + D := by ring
  simp [receiveStep, queueDelayedStep, fireTimer, commit, idleAt, hdur, hclamp,
    hab, Ne.symm hab, hsum]

/-- Witness for `rapid_requests_both_commit`: duration 1000, displayed
step 0, request 1 at time 0 then 0 again at time 100. -/
theorem rapid_requests_both_commit_witness :
    (receiveStep (transitionDuration_ (some 1000)) 100 0
      (receiveStep (transitionDuration_ (some 1000)) 0 1 (idleAt 0))).pending =
      [(0 + 1000 / 2, 1)] ∧
    (fireTimer (transitionDuration_ (some 1000)) (0 + 1000 / 2)
      (receiveStep (transitionDuration_ (some 1000)) 100 0
        (receiveStep (transitionDuration_ (some 1000)) 0 1 (idleAt 0)))).delayedStep = 1 ∧
    (fireTimer (transitionDuration_ (some 1000)) (0 + 1000 / 2)
      (receiveStep (transitionDuration_ (some 1000)) 100 0
        (receiveStep (transitionDuration_ (some 1000)) 0 1 (idleAt 0)))).pending =
      [(0 + 1000, 0)] ∧
    (fireTimer (transitionDuration_ (some 1000)) (0 + 1000)
      (fireTimer (transitionDuration_ (some 1000)) (0 + 1000 / 2)
        (receiveStep (transitionDuration_ (some 1000)) 100 0
          (receiveStep (transitionDuration_ (some 1000)) 0 1 (idleAt 0))))).delayedStep = 0 ∧
    (fireTimer (transitionDuration_ (some 1000)) (0 + 1000)
      (fireTimer (transitionDuration_ (some 1000)) (0 + 1000 / 2)
        (receiveStep (transitionDuration_ (some 1000)) 100 0
          (receiveStep (transitionDuration_ (some 1000)) 0 1 (idleAt 0))))).opacity = 1 ∧
    (fireTimer (transitionDuration_ (some 1000)) (0 + 1000)
      (fireTimer (transitionDuration_ (some 1000)) (0 + 1000 / 2)
        (receiveStep (transitionDuration_ (some 1000)) 100 0
          (receiveStep (transitionDuration_ (some 1000)) 0 1 (idleAt 0))))).pending = [] :=
  rapid_requests_both_commit 1000 0 1 0 100 (by norm_num) (by norm_num)
    (by norm_num)

/-- Helper: when no index of the enumeration starting at `n` equals the
step value, the filter keeps nothing. -/
lemma filter_enumFrom_eq_nil {α : Type} (step : ℚ) :
    ∀ (cs : List α) (n : ℕ),
      (∀ i : ℕ, i < cs.length → ((n + i : ℕ) : ℚ) ≠ step) →
      ((cs.enumFrom n).filter (fun p => decide ((p.1 : ℚ) = step))).map Prod.snd = [] := by
  intro cs
  induction cs with
  | nil => intro n _; rfl
  | cons c cs ih =>
    intro n h
    have h0 : ¬ ((n : ℚ) = step) := by
      have := h 0 (Nat.succ_pos _)
      simpa using this
    have hrest := ih (n + 1) (fun i hi => by
      have h2 := h (i + 1) (by simpa using Nat.succ_lt_succ hi)
      have h3 : n + (i + 1) = n + 1 + i := by omega
      rwa [h3] at h2)
    simp [List.enumFrom, List.filter_cons, h0, hrest]

/-- Helper: when the index `n + i` of the enumeration starting at `n`
equals the step value, the filter keeps exactly the element at offset
`i` and nothing else. -/
lemma filter_enumFrom_eq_single {α : Type} (step : ℚ) :
    ∀ (cs : List α) (n i : ℕ) (hi : i < cs.length),
      ((n + i : ℕ) : ℚ) = step →
      ((cs.enumFrom n).filter (fun p => decide ((p.1 : ℚ) = step))).map Prod.snd
        = [cs.get ⟨i, hi⟩] := by
  intro cs
  induction cs with
  | nil => intro n i hi _; exact absurd hi (Nat.not_lt_zero i)
  | cons c cs ih =>
    intro n i hi he
    cases i with
    | zero =>
      have h0 : ((n : ℚ) = step) := by simpa using he
      have hnone : ∀ j : ℕ, j < cs.length → ((n + 1 + j : ℕ) : ℚ) ≠ step := by
        intro j hj hc
        rw [← h0] at hc
        have : n + 1 + j = n := Nat.cast_inj.mp hc
        omega
      have hrest := filter_enumFrom_eq_nil step cs (n + 1) hnone
      simp [List.enumFrom, List.filter_cons, h0, hrest]
    | succ i' =>
      have hne : ¬ ((n : ℚ) = step) := by
        rw [← he]
        intro hc
        have : n = n + (i' + 1) := Nat.cast_inj.mp hc
        omega
      have he' : ((n + 1 + i' : ℕ) : ℚ) = step := by
        have h3 : n + 1 + i' = n + (i' + 1) := by omega
        rw [h3]; exact he
      have hrec := ih (n + 1) i' (Nat.lt_of_succ_lt_succ hi) he'
      simp [List.enumFrom, List.filter_cons, hne, hrec]

/-- C4: the rendered output holds at most one item; it is exactly the
item at index `i` when the displayed step equals a valid index `i` of
the list, and it is empty when no index of the list equals the displayed
step (covering empty lists and negative, fractional or too-large step
values). -/
theorem rendered_at_most_one {α : Type} (cs : List α) (step : ℚ) :
    (renderedItems cs step).length ≤ 1 ∧
    (∀ (i : ℕ) (hi : i < cs.length), (i : ℚ) = step →
      renderedItems cs step = [cs.get ⟨i, hi⟩]) ∧
    ((∀ i : ℕ, i < cs.length → (i : ℚ) ≠ step) → renderedItems cs step = []) := by
  have hput : ∀ (i : ℕ) (hi : i < cs.length), (i : ℚ) = step →
      renderedItems cs step = [cs.get ⟨i, hi⟩] := by
    intro i hi he
    have h0 : ((0 + i : ℕ) : ℚ) = step := by simpa using he
    simpa [renderedItems, List.enum] using
      filter_enumFrom_eq_single step cs 0 i hi h0
  have hnil : (∀ i : ℕ, i < cs.length → (i : ℚ) ≠ step) →
      renderedItems cs step = [] := by
    intro h
    simpa [renderedItems, List.enum] using
      filter_enumFrom_eq_nil step cs 0 (fun i hi => by simpa using h i hi)
  refine ⟨?_, hput, hnil⟩
  by_cases hex : ∃ i : ℕ, i < cs.length ∧ (i : ℚ) = step
  · obtain ⟨i, hi, he⟩ := hex
    rw [hput i hi he]
    simp
  · push_neg at hex
    rw [hnil hex]
    simp

/-- Witness for `rendered_at_most_one`: a valid index renders exactly
that item, and an out-of-range step renders nothing. -/
theorem rendered_at_most_one_witness :
    renderedItems ["A", "B", "C"] 2 = [(["A", "B", "C"].get ⟨2, by norm_num⟩)] ∧
    renderedItems ["A", "B"] 5 = [] := by
  constructor
  · exact (rendered_at_most_one ["A", "B", "C"] 2).2.1 2 (by norm_num) (by norm_num)
  · exact (rendered_at_most_one ["A", "B"] 5).2.2 (by
      intro i hi
      simp only [List.length_cons, List.length_nil] at hi
      have h2 : i = 0 ∨ i = 1 := by omega
      rcases h2 with h2 | h2 <;> subst h2 <;> norm_num)

/-- Helper: an integer cast into `ℚ` cannot equal a rational with
denominator other than 1. -/
lemma intCast_ne_of_den_ne_one (n : ℤ) (c : ℚ) (h : c.den ≠ 1) : (n : ℚ) ≠ c := by
  intro he
  exact h (by rw [← he]; exact Rat.den_intCast n)

/-- C10: for a non-integer initial `currentStep` the first-mount fade is
not suppressed: the `useState` seed is the 32-bit truncation while the
mount effect compares the untruncated prop, so the mount immediately
drops visibility to 0 and schedules a commit for the half-duration;
firing it makes the displayed step the non-integer value itself at
visibility 1, and no item index matches such a step, so nothing is
rendered. -/
theorem noninteger_mount_not_suppressed {α : Type} (c : ℚ) (D : Option ℚ)
    (cs : List α) (hden : c.den ≠ 1) :
    (mount D c).opacity = 0 ∧
    (mount D c).delayedStep = ((toInt32 c : ℤ) : ℚ) ∧
    (mount D c).pending = [(timeoutDelay (transitionDuration_ D), c)] ∧
    (fireTimer (transitionDuration_ D) (timeoutDelay (transitionDuration_ D))
      (mount D c)).delayedStep = c ∧
    (fireTimer (transitionDuration_ D) (timeoutDelay (transitionDuration_ D))
      (mount D c)).opacity = 1 ∧
    renderedItems cs c = [] := by
  have hne : ((toInt32 c : ℤ) : ℚ) ≠ c := intCast_ne_of_den_ne_one _ c hden
  have hnil : renderedItems cs c = [] := by
    simpa [renderedItems, List.enum] using
      filter_enumFrom_eq_nil c cs 0 (fun i _ hc => by
        have hc' : ((i : ℕ) : ℚ) = c := by simpa using hc
        exact intCast_ne_of_den_ne_one (i : ℤ) c hden (by exact_mod_cast hc'))
  refine ⟨?_, ?_, ?_, ?_, ?_, hnil⟩ <;>
    simp [mount, initState, queueDelayedStep, fireTimer, commit, hne, Ne.symm hne]

/-- Witness for `noninteger_mount_not_suppressed` at `currentStep = 1/2`
with the default duration and a one-item list. -/
theorem noninteger_mount_not_suppressed_witness :
    (mount none (1 / 2)).opacity = 0 ∧
    (mount none (1 / 2)).delayedStep = ((toInt32 (1 / 2) : ℤ) : ℚ) ∧
    (mount none (1 / 2)).pending =
      [(timeoutDelay (transitionDuration_ none), 1 / 2)] ∧
    (fireTimer (transitionDuration_ none) (timeoutDelay (transitionDuration_ none))
      (mount none (1 / 2))).delayedStep = 1 / 2 ∧
    (fireTimer (transitionDuration_ none) (timeoutDelay (transitionDuration_ none))
      (mount none (1 / 2))).opacity = 1 ∧
    renderedItems ["A"] (1 / 2) = [] :=
  noninteger_mount_not_suppressed (1 / 2) none ["A"] (by norm_num)

/-- Helper: folding the assignment-lookup step over `ys` from an
arbitrary accumulator yields `ys`'s own lookup when it binds the key,
else the accumulator. -/
lemma getStyle_foldl_acc (k : String) :
    ∀ (ys : List (String × StyleVal)) (acc : Option StyleVal),
      ys.foldl (fun acc kv => if kv.1 = k then some kv.2 else acc) acc =
        (getStyle ys k).or acc := by
  intro ys
  induction ys with
  | nil => intro acc; rfl
  | cons kv ys ih =>
    intro acc
    rw [List.foldl_cons, ih]
    conv_rhs => rw [getStyle, List.foldl_cons, ih]
    cases hg : getStyle ys k <;> by_cases h : kv.1 = k <;> simp [h]

/-- Helper: the lookup of a concatenation of assignment lists is the
later list's binding when present, else the earlier list's. -/
lemma getStyle_append (xs ys : List (String × StyleVal)) (k : String) :
    getStyle (xs ++ ys) k = (getStyle ys k).or (getStyle xs k) := by
  rw [getStyle, List.foldl_append]
  exact getStyle_foldl_acc k ys (xs.foldl _ none)

/-- C8: for both the container and the item wrapper, the rendered style
is the shallow merge of the component's computed defaults with the
caller's override record: on every key the caller's binding wins when it
exists, and otherwise the computed default shows through. -/
theorem style_override_precedence (D : Option ℚ) (T : String) (op : ℚ)
    (userC userI : List (String × StyleVal)) (k : String) :
    ((∀ v, getStyle userC k = some v →
        getStyle (containerAssignments D T userC) k = some v) ∧
      (getStyle userC k = none →
        getStyle (containerAssignments D T userC) k =
          getStyle (containerDefaults D T) k)) ∧
    ((∀ v, getStyle userI k = some v →
        getStyle (itemAssignments D T op userI) k = some v) ∧
      (getStyle userI k = none →
        getStyle (itemAssignments D T op userI) k =
          getStyle (itemDefaults D T op) k)) := by
  refine ⟨⟨fun v hv => ?_, fun hn => ?_⟩, ⟨fun v hv => ?_, fun hn => ?_⟩⟩
  · rw [containerAssignments, getStyle_append, hv]; rfl
  · rw [containerAssignments, getStyle_append, hn]; rfl
  · rw [itemAssignments, getStyle_append, hv]; rfl
  · rw [itemAssignments, getStyle_append, hn]; rfl

/-- Witness for `style_override_precedence`: a caller record that
collides on `transition` wins over the computed default, and a key the
caller leaves unset falls through to the default. -/
theorem style_override_precedence_witness :
    getStyle (containerAssignments none "ease" [("transition", StyleVal.str "none")])
      "transition" = some (StyleVal.str "none") ∧
    getStyle (itemAssignments none "ease" 1 [("color", StyleVal.str "red")])
      "display" = getStyle (itemDefaults none "ease" 1) "display" := by
  constructor
  · exact (style_override_precedence none "ease" 1
      [("transition", StyleVal.str "none")] [] "transition").1.1
      (StyleVal.str "none") rfl
  · exact (style_override_precedence none "ease" 1 []
      [("color", StyleVal.str "red")] "display").2.2 rfl

/-- C9: with a supplied nonzero duration `D` and timing function `T`,
the container's default `transition` property is the string
`"height " ++ (D / 2) ++ "s " ++ T` while the item wrapper's is
`"opacity " ++ (D / 2) ++ "ms " ++ T`: both interpolate the same halved
duration value, with the unit written as seconds on the container and as
milliseconds on the item wrapper. -/
theorem transition_declaration_strings (D : ℚ) (T : String) (op : ℚ) (hD : D ≠ 0) :
    getStyle (containerDefaults (some D) T) "transition" =
      some (StyleVal.str ("height " ++ numStr (D / 2) ++ "s " ++ T)) ∧
    getStyle (itemDefaults (some D) T op) "transition" =
      some (StyleVal.str ("opacity " ++ numStr (D / 2) ++ "ms " ++ T)) := by
  have hdur : transitionDuration_ (some D) = D / 2 := by
    simp [transitionDuration_, defaultedDuration, hD]
  constructor
  · simp [containerDefaults, containerTransition, getStyle, hdur]
  · simp [itemDefaults, itemTransition, getStyle, hdur]

/-- Witness for `transition_declaration_strings` at duration 700 and
timing function `"linear"`. -/
theorem transition_declaration_strings_witness :
    getStyle (containerDefaults (some 700) "linear") "transition" =
      some (StyleVal.str ("height " ++ numStr (700 / 2) ++ "s " ++ "linear")) ∧
    getStyle (itemDefaults (some 700) "linear" 1) "transition" =
      some (StyleVal.str ("opacity " ++ numStr (700 / 2) ++ "ms " ++ "linear")) :=
  transition_declaration_strings 700 "linear" 1 (by norm_num)

end CTA
